import Mathlib

/-!
Verification of the `jupeos/fsm` finite-state-machine dispatcher
(`src/finite_state_machine.h`, `src/finite_state_machine_conf.h`).

The C data model is embedded shallowly:

* `data_t` and `event_id_t` are `int32_t` in `finite_state_machine_conf.h`;
  no arithmetic is ever performed on them (they are only threaded through and
  compared for equality), so they are modelled as `Int`.
* A C pointer to a `state_t` is modelled by an abstract state-identifier type
  `σ`; dereferencing a pointer is applying a fixed topology function
  `σ → state_t σ`.  The topology is immutable in the source (nothing ever
  writes through a `state_t*`), matching a pure function.
* The nullable callback pointers `entryAction` / `exitAction` / `action` are
  `Option Nat` — an opaque callback identity (the function pointer).  The
  dispatcher never inspects their return value, only calls them, so each
  invocation is recorded in an explicit trace of `Call`s, carrying the callback
  identity and the exact arguments the C code passes.
* The nullable `guard` pointer returns a `bool` the dispatcher branches on, so
  it is a real function `Option (data_t → event_t → Bool)`; its evaluation is
  also recorded in the trace (identified by the transition's position, since
  the C code invokes `transition->guard` of the matched entry).
* `fsm_handle_event` mutates `fsm->currentState` through a pointer and returns
  `bool`; the embedding returns the boolean, the updated machine and the trace
  of callback invocations, in order.
-/

namespace Fsm

/-- `data_t` from `finite_state_machine_conf.h` (`int32_t`, opaque user data). -/
abbrev data_t : Type := Int

/-- `event_id_t` from `finite_state_machine_conf.h` (`int32_t`). -/
abbrev event_id_t : Type := Int

/-- `event_t` from `finite_state_machine_conf.h`: an identifier plus user data. -/
structure event_t where
  ID : event_id_t
  data : data_t
  deriving DecidableEq

/-- `transition_t` from `finite_state_machine.h`: the triggering event
identifier, the target state (a pointer, here an identifier in `σ`), an
optional guard and an optional action callback. -/
structure transition_t (σ : Type) where
  eventID : event_id_t
  nextState : σ
  guard : Option (data_t → event_t → Bool)
  action : Option Nat

/-- `struct state` from `finite_state_machine.h`: user data, optional
entry/exit callbacks and the ordered transition list (`transitions` array
together with `numTransitions`, here a `List` whose length is the count). -/
structure state_t (σ : Type) where
  data : data_t
  entryAction : Option Nat
  exitAction : Option Nat
  transitions : List (transition_t σ)

/-- `state_machine_t` from `finite_state_machine.h`: just the current-state
pointer (the Cursor). -/
structure state_machine_t (σ : Type) where
  currentState : σ
  deriving DecidableEq

/-- One external call performed by the dispatcher, in the order performed:
a guard evaluation (identified by the matched transition's position in the
current state's list) or an exit/action/entry callback invocation, each
recording the callback identity and the exact arguments passed. -/
inductive Call (σ : Type) where
  | guardCall (state : σ) (idx : Nat) (arg : data_t) (event : event_t)
  | exitCall (state : σ) (cb : Nat) (arg : data_t) (event : event_t)
  | actionCall (state : σ) (idx : Nat) (cb : Nat) (arg : data_t) (event : event_t)
  | entryCall (state : σ) (cb : Nat) (arg : data_t) (event : event_t)
  deriving DecidableEq

/-- Whether a trace entry is a guard evaluation (as opposed to an
exit/action/entry callback invocation). -/
def Call.isGuard {σ : Type} : Call σ → Bool
  | .guardCall _ _ _ _ => true
  | _ => false

/-- The transition-list index a trace entry belongs to: guard evaluations and
action invocations come from a specific transition; exit/entry callbacks
belong to a state, not a transition. -/
def Call.transIdx {σ : Type} : Call σ → Option Nat
  | .guardCall _ i _ _ => some i
  | .actionCall _ i _ _ _ => some i
  | _ => none

/-- The exit/action/entry callback invocations of a trace, guard evaluations
removed. -/
def callbackCalls {σ : Type} (tr : List (Call σ)) : List (Call σ) :=
  tr.filter fun c => !c.isGuard

/-- The search loop of `fsm_handle_event` (lines 158–166): scan the
transition array in order and stop at the first entry whose `eventID` equals
the event's `ID`, returning its position and the entry (`transition =
&fsm->currentState->transitions[i]; break;`).  `i` is the position of the
head of `ts` in the full array. -/
def fsm_find_transition {σ : Type} :
    List (transition_t σ) → Nat → event_id_t → Option (Nat × transition_t σ)
  | [], _, _ => none
  | t :: rest, i, eid =>
    if t.eventID = eid then some (i, t) else fsm_find_transition rest (i + 1) eid

/-- `fsm_handle_event` (lines 153–203): find the first matching transition of
the current state; if none, return `false` with no effects.  Otherwise
evaluate the guard if present (default `true`); if it declines, return
`false` with no callback run.  Otherwise run the current state's exit
callback, the transition's action, and the target's entry callback — each
only if present, each with exactly the arguments the C code passes — then
move the cursor to the target and return `true`.

The result is `(retVal, the machine after the call, the trace of external
calls in order)`. -/
def fsm_handle_event {σ : Type} (topo : σ → state_t σ) (fsm : state_machine_t σ)
    (event : event_t) : Bool × state_machine_t σ × List (Call σ) :=
  let cur := topo fsm.currentState
  match fsm_find_transition cur.transitions 0 event.ID with
  | none => (false, fsm, [])
  | some (i, transition) =>
    let guardStep : Bool × List (Call σ) :=
      match transition.guard with
      | some g => (g cur.data event, [Call.guardCall fsm.currentState i cur.data event])
      | none => (true, [])
    if guardStep.1 then
      let exitCalls : List (Call σ) :=
        match cur.exitAction with
        | some cb => [Call.exitCall fsm.currentState cb cur.data event]
        | none => []
      let actionCalls : List (Call σ) :=
        match transition.action with
        | some cb => [Call.actionCall fsm.currentState i cb cur.data event]
        | none => []
      let next := topo transition.nextState
      let entryCalls : List (Call σ) :=
        match next.entryAction with
        | some cb => [Call.entryCall transition.nextState cb next.data event]
        | none => []
      (true, ⟨transition.nextState⟩, guardStep.2 ++ exitCalls ++ actionCalls ++ entryCalls)
    else
      (false, fsm, guardStep.2)

/-! ### Properties of the search loop -/

/-- If no entry of `ts` matches `eid`, the search returns `none`. -/
theorem fsm_find_transition_eq_none {σ : Type} (ts : List (transition_t σ))
    (eid : event_id_t) (h : ∀ u ∈ ts, u.eventID ≠ eid) :
    ∀ n, fsm_find_transition ts n eid = none := by
  induction ts with
  | nil => intro n; rfl
  | cons t rest ih =>
    intro n
    have ht : t.eventID ≠ eid := h t (List.mem_cons_self t rest)
    simp only [fsm_find_transition, if_neg ht]
    exact ih (fun u hu => h u (List.mem_cons_of_mem t hu)) (n + 1)

/-- The index returned by the search is below the start offset plus the number
of remaining entries: starting at offset `0`, below `numTransitions`. -/
theorem fsm_find_transition_lt {σ : Type} (ts : List (transition_t σ))
    (eid : event_id_t) :
    ∀ n i t, fsm_find_transition ts n eid = some (i, t) → i < n + ts.length := by
  induction ts with
  | nil => intro n i t h; simp [fsm_find_transition] at h
  | cons u rest ih =>
    intro n i t h
    by_cases hc : u.eventID = eid
    · simp only [fsm_find_transition, if_pos hc, Option.some.injEq, Prod.mk.injEq] at h
      simp only [List.length_cons]
      omega
    · simp only [fsm_find_transition, if_neg hc] at h
      have := ih (n + 1) i t h
      simp only [List.length_cons]
      omega

/-- The search finds exactly the first matching entry: if position `i` of `ts`
matches and no earlier position does, the search starting at offset `n`
returns `some (n + i, ts[i])`. -/
theorem fsm_find_transition_first {σ : Type} (ts : List (transition_t σ))
    (eid : event_id_t) :
    ∀ n i (t : transition_t σ), ts[i]? = some t → t.eventID = eid →
      (∀ k u, k < i → ts[k]? = some u → u.eventID ≠ eid) →
      fsm_find_transition ts n eid = some (n + i, t) := by
  induction ts with
  | nil => intro n i t h; simp at h
  | cons u rest ih =>
    intro n i t h h2 h3
    cases i with
    | zero =>
      simp only [List.getElem?_cons_zero, Option.some.injEq] at h
      subst h
      simp [fsm_find_transition, h2]
    | succ k =>
      have hne : u.eventID ≠ eid := h3 0 u (Nat.succ_pos k) (by simp)
      have hrec := ih (n + 1) k t (by simpa using h) h2
        (fun k' v hk' hv => h3 (k' + 1) v (by omega) (by simpa using hv))
      simp only [fsm_find_transition, if_neg hne, hrec]
      congr 2
      omega

/-- A found entry really is an entry of the list and matches the event. -/
theorem fsm_find_transition_mem {σ : Type} (ts : List (transition_t σ))
    (eid : event_id_t) :
    ∀ n i t, fsm_find_transition ts n eid = some (i, t) →
      t ∈ ts ∧ t.eventID = eid := by
  induction ts with
  | nil => intro n i t h; simp [fsm_find_transition] at h
  | cons u rest ih =>
    intro n i t h
    by_cases hc : u.eventID = eid
    · simp only [fsm_find_transition, if_pos hc, Option.some.injEq, Prod.mk.injEq] at h
      exact ⟨h.2 ▸ List.mem_cons_self u rest, h.2 ▸ hc⟩
    · simp only [fsm_find_transition, if_neg hc] at h
      have := ih (n + 1) i t h
      exact ⟨List.mem_cons_of_mem u this.1, this.2⟩

/-! ### The four outcomes of one dispatch call -/

/-- No entry of the current state matches: `fsm_handle_event` returns `false`,
leaves the machine unchanged and performs no external call. -/
theorem handle_event_no_match {σ : Type} (topo : σ → state_t σ)
    (fsm : state_machine_t σ) (event : event_t)
    (hf : fsm_find_transition (topo fsm.currentState).transitions 0 event.ID = none) :
    fsm_handle_event topo fsm event = (false, fsm, []) := by
  simp only [fsm_handle_event, hf]

/-- The matched transition's guard declines: `fsm_handle_event` returns
`false`, leaves the machine unchanged, and the only external call is that one
guard evaluation, with the current state's data and the event. -/
theorem handle_event_guard_false {σ : Type} (topo : σ → state_t σ)
    (fsm : state_machine_t σ) (event : event_t) (i : Nat) (t : transition_t σ)
    (g : data_t → event_t → Bool)
    (hf : fsm_find_transition (topo fsm.currentState).transitions 0 event.ID = some (i, t))
    (hg : t.guard = some g)
    (hr : g (topo fsm.currentState).data event = false) :
    fsm_handle_event topo fsm event =
      (false, fsm, [Call.guardCall fsm.currentState i (topo fsm.currentState).data event]) := by
  simp only [fsm_handle_event, hf, hg, hr]
  simp

/-- The matched transition has no guard: the transition fires.  The trace is
the optional exit, action and entry calls in order, with the arguments the C
code passes, and the cursor moves to the target. -/
theorem handle_event_fire_of_guard_none {σ : Type} (topo : σ → state_t σ)
    (fsm : state_machine_t σ) (event : event_t) (i : Nat) (t : transition_t σ)
    (hf : fsm_find_transition (topo fsm.currentState).transitions 0 event.ID = some (i, t))
    (hg : t.guard = none) :
    fsm_handle_event topo fsm event =
      (true, ⟨t.nextState⟩,
        ((topo fsm.currentState).exitAction.toList.map fun cb =>
          Call.exitCall fsm.currentState cb (topo fsm.currentState).data event) ++
        (t.action.toList.map fun cb =>
          Call.actionCall fsm.currentState i cb (topo fsm.currentState).data event) ++
        ((topo t.nextState).entryAction.toList.map fun cb =>
          Call.entryCall t.nextState cb (topo t.nextState).data event)) := by
  simp only [fsm_handle_event, hf, hg]
  cases hx : (topo fsm.currentState).exitAction <;>
    cases ha : t.action <;>
    cases he : (topo t.nextState).entryAction <;>
    simp [hx, ha, he]

/-- The matched transition's guard accepts: the transition fires.  The trace
is the guard evaluation followed by the optional exit, action and entry calls
in order, and the cursor moves to the target. -/
theorem handle_event_fire_of_guard_true {σ : Type} (topo : σ → state_t σ)
    (fsm : state_machine_t σ) (event : event_t) (i : Nat) (t : transition_t σ)
    (g : data_t → event_t → Bool)
    (hf : fsm_find_transition (topo fsm.currentState).transitions 0 event.ID = some (i, t))
    (hg : t.guard = some g)
    (hr : g (topo fsm.currentState).data event = true) :
    fsm_handle_event topo fsm event =
      (true, ⟨t.nextState⟩,
        Call.guardCall fsm.currentState i (topo fsm.currentState).data event ::
        (((topo fsm.currentState).exitAction.toList.map fun cb =>
          Call.exitCall fsm.currentState cb (topo fsm.currentState).data event) ++
        (t.action.toList.map fun cb =>
          Call.actionCall fsm.currentState i cb (topo fsm.currentState).data event) ++
        ((topo t.nextState).entryAction.toList.map fun cb =>
          Call.entryCall t.nextState cb (topo t.nextState).data event))) := by
  simp only [fsm_handle_event, hf, hg, hr]
  cases hx : (topo fsm.currentState).exitAction <;>
    cases ha : t.action <;>
    cases he : (topo t.nextState).entryAction <;>
    simp [hx, ha, he]

/-- Every guard evaluation and action invocation of one dispatch call belongs
to the transition the search returned; exit/entry calls belong to no
transition. -/
theorem handle_event_transIdx {σ : Type} (topo : σ → state_t σ)
    (fsm : state_machine_t σ) (event : event_t) (i : Nat) (t : transition_t σ)
    (hf : fsm_find_transition (topo fsm.currentState).transitions 0 event.ID = some (i, t)) :
    ∀ c ∈ (fsm_handle_event topo fsm event).2.2,
      c.transIdx = none ∨ c.transIdx = some i := by
  rcases hgo : t.guard with _ | g
  · rw [handle_event_fire_of_guard_none topo fsm event i t hf hgo]
    intro c hc
    simp only [List.mem_append, List.mem_map, Option.mem_toList] at hc
    rcases hc with (⟨cb, _, rfl⟩ | ⟨cb, _, rfl⟩) | ⟨cb, _, rfl⟩
    · exact Or.inl rfl
    · exact Or.inr rfl
    · exact Or.inl rfl
  · cases hgr : g (topo fsm.currentState).data event with
    | false =>
      rw [handle_event_guard_false topo fsm event i t g hf hgo hgr]
      intro c hc
      simp only [List.mem_singleton] at hc
      subst hc
      exact Or.inr rfl
    | true =>
      rw [handle_event_fire_of_guard_true topo fsm event i t g hf hgo hgr]
      intro c hc
      simp only [List.mem_cons, List.mem_append, List.mem_map, Option.mem_toList] at hc
      rcases hc with rfl | ((⟨cb, _, rfl⟩ | ⟨cb, _, rfl⟩) | ⟨cb, _, rfl⟩)
      · exact Or.inr rfl
      · exact Or.inl rfl
      · exact Or.inr rfl
      · exact Or.inl rfl

/-! ### A concrete topology, used to witness the theorems

A door (states `0` = Closed, `1` = Open), a guarded lock (states `2` = Locked,
`3` = Unlocked, guard: event data equals 42), a state with two transitions on
the same event identifier (state `4`), and a self-loop (state `5`).  Callback
identities are arbitrary distinct numbers. -/

/-- Guard of the lock: lets the event through iff its data is 42. -/
def exGuard42 : data_t → event_t → Bool := fun _ ev => ev.data == 42

/-- A guard that always declines. -/
def exGuardNo : data_t → event_t → Bool := fun _ _ => false

/-- Closed → Open on event 5, with an action. -/
def exT0 : transition_t Nat :=
  { eventID := 5, nextState := 1, guard := none, action := some 200 }

/-- Locked → Unlocked on event 7, guarded. -/
def exTLock : transition_t Nat :=
  { eventID := 7, nextState := 3, guard := some exGuard42, action := none }

/-- First of two duplicates on event 9: guard always declines. -/
def exTDup1 : transition_t Nat :=
  { eventID := 9, nextState := 0, guard := some exGuardNo, action := some 300 }

/-- Second of two duplicates on event 9: unguarded. -/
def exTDup2 : transition_t Nat :=
  { eventID := 9, nextState := 1, guard := none, action := some 301 }

/-- Self-loop on event 11. -/
def exTSelf : transition_t Nat :=
  { eventID := 11, nextState := 5, guard := none, action := some 502 }

/-- State 0, Closed. -/
def exS0 : state_t Nat :=
  { data := 10, entryAction := some 101, exitAction := some 100, transitions := [exT0] }

/-- State 1, Open: no outgoing transitions. -/
def exS1 : state_t Nat :=
  { data := 20, entryAction := some 102, exitAction := none, transitions := [] }

/-- State 2, Locked. -/
def exS2 : state_t Nat :=
  { data := 30, entryAction := none, exitAction := none, transitions := [exTLock] }

/-- State 3, Unlocked. -/
def exS3 : state_t Nat :=
  { data := 40, entryAction := none, exitAction := none, transitions := [] }

/-- State 4: two transitions sharing event identifier 9. -/
def exS4 : state_t Nat :=
  { data := 44, entryAction := none, exitAction := none, transitions := [exTDup1, exTDup2] }

/-- State 5: a self-loop, with entry and exit callbacks. -/
def exS5 : state_t Nat :=
  { data := 50, entryAction := some 500, exitAction := some 501, transitions := [exTSelf] }

/-- The example topology. -/
def exTopo : Nat → state_t Nat
  | 0 => exS0
  | 1 => exS1
  | 2 => exS2
  | 3 => exS3
  | 4 => exS4
  | _ => exS5

/-! ### The claims -/

/-- C1: if the first transition of the current state matching the event's
identifier has an absent guard or a guard evaluating to true, dispatch returns
`true`, the current state becomes the transition's target, and the callback
invocations are exactly the current state's exit callback, the transition's
action, and the target's entry callback — each only if present, each once, in
that order. -/
theorem C1_first_match_fires {σ : Type} (topo : σ → state_t σ)
    (fsm : state_machine_t σ) (event : event_t) (i : Nat) (t : transition_t σ)
    (hf : fsm_find_transition (topo fsm.currentState).transitions 0 event.ID = some (i, t))
    (hg : t.guard = none ∨
      ∃ g, t.guard = some g ∧ g (topo fsm.currentState).data event = true) :
    (fsm_handle_event topo fsm event).1 = true ∧
    (fsm_handle_event topo fsm event).2.1.currentState = t.nextState ∧
    callbackCalls (fsm_handle_event topo fsm event).2.2 =
      ((topo fsm.currentState).exitAction.toList.map fun cb =>
        Call.exitCall fsm.currentState cb (topo fsm.currentState).data event) ++
      (t.action.toList.map fun cb =>
        Call.actionCall fsm.currentState i cb (topo fsm.currentState).data event) ++
      ((topo t.nextState).entryAction.toList.map fun cb =>
        Call.entryCall t.nextState cb (topo t.nextState).data event) := by
  rcases hg with hg | ⟨g, hg, hr⟩
  · rw [handle_event_fire_of_guard_none topo fsm event i t hf hg]
    refine ⟨rfl, rfl, ?_⟩
    cases (topo fsm.currentState).exitAction <;>
      cases t.action <;>
      cases (topo t.nextState).entryAction <;>
      simp [callbackCalls, Call.isGuard]
  · rw [handle_event_fire_of_guard_true topo fsm event i t g hf hg hr]
    refine ⟨rfl, rfl, ?_⟩
    cases (topo fsm.currentState).exitAction <;>
      cases t.action <;>
      cases (topo t.nextState).entryAction <;>
      simp [callbackCalls, Call.isGuard]

/-- Witness for C1: from Closed (state 0), event 5 fires the unguarded
transition to Open: result `true`, cursor at 1, callbacks exit 100, action
200, entry 102 — in that order, with the payloads of the states they belong
to. -/
theorem C1_first_match_fires_witness :
    (fsm_find_transition (exTopo ((⟨0⟩ : state_machine_t Nat)).currentState).transitions 0
      (5 : Int) = some (0, exT0)) ∧
    (fsm_handle_event exTopo ⟨0⟩ ⟨5, 7⟩).1 = true ∧
    (fsm_handle_event exTopo ⟨0⟩ ⟨5, 7⟩).2.1.currentState = 1 ∧
    callbackCalls (fsm_handle_event exTopo ⟨0⟩ ⟨5, 7⟩).2.2 =
      [Call.exitCall 0 100 10 ⟨5, 7⟩, Call.actionCall 0 0 200 10 ⟨5, 7⟩,
       Call.entryCall 1 102 20 ⟨5, 7⟩] :=
  have h := C1_first_match_fires exTopo ⟨0⟩ ⟨5, 7⟩ 0 exT0 rfl (Or.inl rfl)
  ⟨rfl, h.1, h.2.1.trans rfl, h.2.2.trans rfl⟩

/-- C2: if no transition of the current state carries the event's identifier,
dispatch returns `false`, the machine is unchanged, and no guard, exit, action
or entry callback is invoked (empty trace). -/
theorem C2_no_match_noop {σ : Type} (topo : σ → state_t σ)
    (fsm : state_machine_t σ) (event : event_t)
    (h : ∀ u ∈ (topo fsm.currentState).transitions, u.eventID ≠ event.ID) :
    fsm_handle_event topo fsm event = (false, fsm, []) :=
  handle_event_no_match topo fsm event
    (fsm_find_transition_eq_none (topo fsm.currentState).transitions event.ID h 0)

/-- Witness for C2: from Closed (state 0), event 99 matches nothing: `false`,
machine unchanged, no calls. -/
theorem C2_no_match_noop_witness :
    (∀ u ∈ (exTopo ((⟨0⟩ : state_machine_t Nat)).currentState).transitions,
      u.eventID ≠ ((⟨99, 0⟩ : event_t)).ID) ∧
    fsm_handle_event exTopo ⟨0⟩ ⟨99, 0⟩ = (false, ⟨0⟩, []) :=
  have hne : ∀ u ∈ (exTopo ((⟨0⟩ : state_machine_t Nat)).currentState).transitions,
      u.eventID ≠ ((⟨99, 0⟩ : event_t)).ID := by
    intro u hu
    simp only [exTopo, exS0, List.mem_singleton] at hu
    subst hu
    decide
  ⟨hne, C2_no_match_noop exTopo ⟨0⟩ ⟨99, 0⟩ hne⟩

/-- C3: if the first matching transition's guard evaluates to false, dispatch
returns `false`, the machine is unchanged, and no exit, action or entry
callback is invoked. -/
theorem C3_guard_declines {σ : Type} (topo : σ → state_t σ)
    (fsm : state_machine_t σ) (event : event_t) (i : Nat) (t : transition_t σ)
    (g : data_t → event_t → Bool)
    (hf : fsm_find_transition (topo fsm.currentState).transitions 0 event.ID = some (i, t))
    (hg : t.guard = some g)
    (hr : g (topo fsm.currentState).data event = false) :
    (fsm_handle_event topo fsm event).1 = false ∧
    (fsm_handle_event topo fsm event).2.1 = fsm ∧
    callbackCalls (fsm_handle_event topo fsm event).2.2 = [] := by
  rw [handle_event_guard_false topo fsm event i t g hf hg hr]
  exact ⟨rfl, rfl, by simp [callbackCalls, Call.isGuard]⟩

/-- Witness for C3: from Locked (state 2), event 7 with data 7 is declined by
the guard (data ≠ 42): `false`, machine unchanged, no callback invoked. -/
theorem C3_guard_declines_witness :
    (fsm_find_transition (exTopo ((⟨2⟩ : state_machine_t Nat)).currentState).transitions 0
      (7 : Int) = some (0, exTLock)) ∧
    exTLock.guard = some exGuard42 ∧
    exGuard42 (exTopo ((⟨2⟩ : state_machine_t Nat)).currentState).data ⟨7, 7⟩ = false ∧
    (fsm_handle_event exTopo ⟨2⟩ ⟨7, 7⟩).1 = false ∧
    (fsm_handle_event exTopo ⟨2⟩ ⟨7, 7⟩).2.1 = ⟨2⟩ ∧
    callbackCalls (fsm_handle_event exTopo ⟨2⟩ ⟨7, 7⟩).2.2 = [] :=
  have h := C3_guard_declines exTopo ⟨2⟩ ⟨7, 7⟩ 0 exTLock exGuard42 rfl rfl rfl
  ⟨rfl, rfl, rfl, h.1, h.2.1, h.2.2⟩

/-- C4: when a state has two or more transitions with the same event
identifier, only the first (in declaration order) is ever evaluated: every
guard evaluation and action invocation of the dispatch belongs to the first
matching transition `i`, never to the later duplicate `j`; and if the first
one's guard rejects, dispatch returns `false` with the machine unchanged
rather than trying the duplicate. -/
theorem C4_first_duplicate_wins {σ : Type} (topo : σ → state_t σ)
    (fsm : state_machine_t σ) (event : event_t) (i j : Nat)
    (t u : transition_t σ)
    (hi : (topo fsm.currentState).transitions[i]? = some t)
    (ht : t.eventID = event.ID)
    (hfirst : ∀ k v, k < i → (topo fsm.currentState).transitions[k]? = some v →
      v.eventID ≠ event.ID)
    (hij : i < j)
    (_hj : (topo fsm.currentState).transitions[j]? = some u)
    (_hu : u.eventID = event.ID) :
    (∀ c ∈ (fsm_handle_event topo fsm event).2.2,
      c.transIdx = none ∨ c.transIdx = some i) ∧
    (∀ c ∈ (fsm_handle_event topo fsm event).2.2, c.transIdx ≠ some j) ∧
    (∀ g, t.guard = some g → g (topo fsm.currentState).data event = false →
      (fsm_handle_event topo fsm event).1 = false ∧
      (fsm_handle_event topo fsm event).2.1 = fsm) := by
  have hf : fsm_find_transition (topo fsm.currentState).transitions 0 event.ID
      = some (i, t) := by
    simpa using
      fsm_find_transition_first (topo fsm.currentState).transitions event.ID 0 i t hi ht hfirst
  have hmain := handle_event_transIdx topo fsm event i t hf
  refine ⟨hmain, ?_, ?_⟩
  · intro c hc hcj
    rcases hmain c hc with h | h
    · rw [h] at hcj; exact Option.noConfusion hcj
    · rw [h] at hcj
      have : i = j := Option.some.inj hcj
      omega
  · intro g hg hr
    rw [handle_event_guard_false topo fsm event i t g hf hg hr]
    exact ⟨rfl, rfl⟩

/-- Witness for C4: state 4 has two transitions on event 9; the first's guard
always declines.  Dispatching event 9 evaluates only transition 0, returns
`false`, and never touches transition 1. -/
theorem C4_first_duplicate_wins_witness :
    ((exTopo ((⟨4⟩ : state_machine_t Nat)).currentState).transitions[0]? = some exTDup1) ∧
    exTDup1.eventID = ((⟨9, 0⟩ : event_t)).ID ∧
    (∀ k v, k < 0 → (exTopo ((⟨4⟩ : state_machine_t Nat)).currentState).transitions[k]? = some v →
      v.eventID ≠ ((⟨9, 0⟩ : event_t)).ID) ∧
    (0 < 1) ∧
    ((exTopo ((⟨4⟩ : state_machine_t Nat)).currentState).transitions[1]? = some exTDup2) ∧
    exTDup2.eventID = ((⟨9, 0⟩ : event_t)).ID ∧
    ((∀ c ∈ (fsm_handle_event exTopo ⟨4⟩ ⟨9, 0⟩).2.2,
      c.transIdx = none ∨ c.transIdx = some 0) ∧
     (∀ c ∈ (fsm_handle_event exTopo ⟨4⟩ ⟨9, 0⟩).2.2, c.transIdx ≠ some 1) ∧
     (∀ g, exTDup1.guard = some g → g (exTopo ((⟨4⟩ : state_machine_t Nat)).currentState).data ⟨9, 0⟩ = false →
       (fsm_handle_event exTopo ⟨4⟩ ⟨9, 0⟩).1 = false ∧
       (fsm_handle_event exTopo ⟨4⟩ ⟨9, 0⟩).2.1 = ⟨4⟩)) :=
  ⟨rfl, rfl, fun k _v hk _ => absurd hk (Nat.not_lt_zero k), Nat.zero_lt_one, rfl, rfl,
    C4_first_duplicate_wins exTopo ⟨4⟩ ⟨9, 0⟩ 0 1 exTDup1 exTDup2 rfl rfl
      (fun k _v hk _ => absurd hk (Nat.not_lt_zero k)) Nat.zero_lt_one rfl rfl⟩

/-- C5: on a successful dispatch, the exit callback and the transition's
action receive the outgoing (pre-transition) state's payload and the event,
while the target's entry callback receives the target state's payload and the
event. -/
theorem C5_callback_payloads {σ : Type} (topo : σ → state_t σ)
    (fsm : state_machine_t σ) (event : event_t) (i : Nat) (t : transition_t σ)
    (hf : fsm_find_transition (topo fsm.currentState).transitions 0 event.ID = some (i, t))
    (hg : t.guard = none ∨
      ∃ g, t.guard = some g ∧ g (topo fsm.currentState).data event = true) :
    (∀ s cb a ev, Call.exitCall s cb a ev ∈ (fsm_handle_event topo fsm event).2.2 →
      s = fsm.currentState ∧ a = (topo fsm.currentState).data ∧ ev = event) ∧
    (∀ s k cb a ev, Call.actionCall s k cb a ev ∈ (fsm_handle_event topo fsm event).2.2 →
      a = (topo fsm.currentState).data ∧ ev = event) ∧
    (∀ s cb a ev, Call.entryCall s cb a ev ∈ (fsm_handle_event topo fsm event).2.2 →
      s = t.nextState ∧ a = (topo t.nextState).data ∧ ev = event) := by
  have htr : ∀ c ∈ (fsm_handle_event topo fsm event).2.2,
      c = Call.guardCall fsm.currentState i (topo fsm.currentState).data event ∨
      c ∈ ((topo fsm.currentState).exitAction.toList.map fun cb =>
          Call.exitCall fsm.currentState cb (topo fsm.currentState).data event) ++
        (t.action.toList.map fun cb =>
          Call.actionCall fsm.currentState i cb (topo fsm.currentState).data event) ++
        ((topo t.nextState).entryAction.toList.map fun cb =>
          Call.entryCall t.nextState cb (topo t.nextState).data event) := by
    rcases hg with hgo | ⟨g, hgo, hr⟩
    · rw [handle_event_fire_of_guard_none topo fsm event i t hf hgo]
      exact fun c hc => Or.inr hc
    · rw [handle_event_fire_of_guard_true topo fsm event i t g hf hgo hr]
      intro c hc
      rcases List.mem_cons.mp hc with rfl | hc
      · exact Or.inl rfl
      · exact Or.inr hc
  refine ⟨?_, ?_, ?_⟩
  · intro s cb a ev h
    rcases htr _ h with h' | h'
    · exact absurd h' (by simp)
    · simp only [List.mem_append, List.mem_map, Option.mem_toList] at h'
      rcases h' with (⟨cb', _, he⟩ | ⟨cb', _, he⟩) | ⟨cb', _, he⟩ <;>
        first
          | (injection he with h1 h2 h3 h4; exact ⟨h1.symm, h3.symm, h4.symm⟩)
          | exact absurd he (by simp)
  · intro s k cb a ev h
    rcases htr _ h with h' | h'
    · exact absurd h' (by simp)
    · simp only [List.mem_append, List.mem_map, Option.mem_toList] at h'
      rcases h' with (⟨cb', _, he⟩ | ⟨cb', _, he⟩) | ⟨cb', _, he⟩ <;>
        first
          | (injection he with h1 h2 h3 h4 h5; exact ⟨h4.symm, h5.symm⟩)
          | exact absurd he (by simp)
  · intro s cb a ev h
    rcases htr _ h with h' | h'
    · exact absurd h' (by simp)
    · simp only [List.mem_append, List.mem_map, Option.mem_toList] at h'
      rcases h' with (⟨cb', _, he⟩ | ⟨cb', _, he⟩) | ⟨cb', _, he⟩ <;>
        first
          | (injection he with h1 h2 h3 h4; exact ⟨h1.symm, h3.symm, h4.symm⟩)
          | exact absurd he (by simp)

/-- Witness for C5: the successful dispatch from Closed (state 0) on event 5
passes payload 10 (Closed's data) to the exit and action callbacks and
payload 20 (Open's data) to the entry callback. -/
theorem C5_callback_payloads_witness :
    (fsm_find_transition (exTopo ((⟨0⟩ : state_machine_t Nat)).currentState).transitions 0
      (5 : Int) = some (0, exT0)) ∧
    ((∀ s cb a ev, Call.exitCall s cb a ev ∈ (fsm_handle_event exTopo ⟨0⟩ ⟨5, 7⟩).2.2 →
      s = ((⟨0⟩ : state_machine_t Nat)).currentState ∧
      a = (exTopo ((⟨0⟩ : state_machine_t Nat)).currentState).data ∧ ev = ⟨5, 7⟩) ∧
     (∀ s k cb a ev, Call.actionCall s k cb a ev ∈ (fsm_handle_event exTopo ⟨0⟩ ⟨5, 7⟩).2.2 →
      a = (exTopo ((⟨0⟩ : state_machine_t Nat)).currentState).data ∧ ev = ⟨5, 7⟩) ∧
     (∀ s cb a ev, Call.entryCall s cb a ev ∈ (fsm_handle_event exTopo ⟨0⟩ ⟨5, 7⟩).2.2 →
      s = exT0.nextState ∧ a = (exTopo exT0.nextState).data ∧ ev = ⟨5, 7⟩)) :=
  ⟨rfl, C5_callback_payloads exTopo ⟨0⟩ ⟨5, 7⟩ 0 exT0 rfl (Or.inl rfl)⟩

/-- C6: when a matching transition is found, a present guard is evaluated
exactly once, with the current state's payload and the event, and its result
is the dispatch result's gate; an absent guard behaves as always-true: the
transition fires unconditionally, with no guard evaluation at all. -/
theorem C6_guard_semantics {σ : Type} (topo : σ → state_t σ)
    (fsm : state_machine_t σ) (event : event_t) (i : Nat) (t : transition_t σ)
    (hf : fsm_find_transition (topo fsm.currentState).transitions 0 event.ID = some (i, t)) :
    (∀ g, t.guard = some g →
      (fsm_handle_event topo fsm event).2.2.filter (fun c => c.isGuard) =
        [Call.guardCall fsm.currentState i (topo fsm.currentState).data event] ∧
      (fsm_handle_event topo fsm event).1 = g (topo fsm.currentState).data event) ∧
    (t.guard = none →
      (fsm_handle_event topo fsm event).1 = true ∧
      (fsm_handle_event topo fsm event).2.2.filter (fun c => c.isGuard) = []) := by
  constructor
  · intro g hg
    cases hgr : g (topo fsm.currentState).data event with
    | false =>
      rw [handle_event_guard_false topo fsm event i t g hf hg hgr]
      exact ⟨by simp [Call.isGuard], rfl⟩
    | true =>
      rw [handle_event_fire_of_guard_true topo fsm event i t g hf hg hgr]
      refine ⟨?_, rfl⟩
      cases (topo fsm.currentState).exitAction <;>
        cases t.action <;>
        cases (topo t.nextState).entryAction <;>
        simp [Call.isGuard]
  · intro hg
    rw [handle_event_fire_of_guard_none topo fsm event i t hf hg]
    refine ⟨rfl, ?_⟩
    cases (topo fsm.currentState).exitAction <;>
      cases t.action <;>
      cases (topo t.nextState).entryAction <;>
      simp [Call.isGuard]

/-- Witness for C6: from Locked (state 2), event 7 with data 42 is evaluated
by the guard exactly once with Locked's payload 30, and the dispatch result
equals the guard's verdict. -/
theorem C6_guard_semantics_witness :
    (fsm_find_transition (exTopo ((⟨2⟩ : state_machine_t Nat)).currentState).transitions 0
      (7 : Int) = some (0, exTLock)) ∧
    ((∀ g, exTLock.guard = some g →
      (fsm_handle_event exTopo ⟨2⟩ ⟨7, 42⟩).2.2.filter (fun c => c.isGuard) =
        [Call.guardCall ((⟨2⟩ : state_machine_t Nat)).currentState 0
          (exTopo ((⟨2⟩ : state_machine_t Nat)).currentState).data ⟨7, 42⟩] ∧
      (fsm_handle_event exTopo ⟨2⟩ ⟨7, 42⟩).1 =
        g (exTopo ((⟨2⟩ : state_machine_t Nat)).currentState).data ⟨7, 42⟩) ∧
     (exTLock.guard = none →
      (fsm_handle_event exTopo ⟨2⟩ ⟨7, 42⟩).1 = true ∧
      (fsm_handle_event exTopo ⟨2⟩ ⟨7, 42⟩).2.2.filter (fun c => c.isGuard) = [])) :=
  ⟨rfl, C6_guard_semantics exTopo ⟨2⟩ ⟨7, 42⟩ 0 exTLock rfl⟩

/-- C7: the cursor is the dispatcher's only write.  In this pure embedding
the topology and the event are read-only inputs (nothing in
`fsm_handle_event` produces a modified topology or event), and the returned
machine is exactly: unchanged when dispatch returns `false`, and the matched
transition's target — a single assignment — when it returns `true`. -/
theorem C7_cursor_only_write {σ : Type} (topo : σ → state_t σ)
    (fsm : state_machine_t σ) (event : event_t) :
    ((fsm_handle_event topo fsm event).1 = false →
      (fsm_handle_event topo fsm event).2.1 = fsm) ∧
    ((fsm_handle_event topo fsm event).1 = true →
      ∃ i t, fsm_find_transition (topo fsm.currentState).transitions 0 event.ID
          = some (i, t) ∧
        (fsm_handle_event topo fsm event).2.1 = ⟨t.nextState⟩) := by
  rcases hfo : fsm_find_transition (topo fsm.currentState).transitions 0 event.ID
    with _ | ⟨i, t⟩
  · rw [handle_event_no_match topo fsm event hfo]
    exact ⟨fun _ => rfl, fun h => absurd h (by simp)⟩
  · rcases hgo : t.guard with _ | g
    · rw [handle_event_fire_of_guard_none topo fsm event i t hfo hgo]
      exact ⟨fun h => absurd h (by simp), fun _ => ⟨i, t, rfl, rfl⟩⟩
    · cases hgr : g (topo fsm.currentState).data event with
      | false =>
        rw [handle_event_guard_false topo fsm event i t g hfo hgo hgr]
        exact ⟨fun _ => rfl, fun h => absurd h (by simp)⟩
      | true =>
        rw [handle_event_fire_of_guard_true topo fsm event i t g hfo hgo hgr]
        exact ⟨fun h => absurd h (by simp), fun _ => ⟨i, t, rfl, rfl⟩⟩

/-- Witness for C7 at the door machine: on the successful dispatch from
Closed, the cursor is written with the matched target; the `false` branch
holds vacuously. -/
theorem C7_cursor_only_write_witness :
    ((fsm_handle_event exTopo ⟨0⟩ ⟨5, 7⟩).1 = false →
      (fsm_handle_event exTopo ⟨0⟩ ⟨5, 7⟩).2.1 = ⟨0⟩) ∧
    ((fsm_handle_event exTopo ⟨0⟩ ⟨5, 7⟩).1 = true →
      ∃ i t, fsm_find_transition
          (exTopo ((⟨0⟩ : state_machine_t Nat)).currentState).transitions 0
          ((⟨5, 7⟩ : event_t)).ID = some (i, t) ∧
        (fsm_handle_event exTopo ⟨0⟩ ⟨5, 7⟩).2.1 = ⟨t.nextState⟩) :=
  C7_cursor_only_write exTopo ⟨0⟩ ⟨5, 7⟩

/-- C8: dispatch always completes with a boolean verdict, the transition
search returns an index below the current state's transition count, and every
guard evaluation or action invocation in the trace is at an index below that
count. -/
theorem C8_bounded_termination {σ : Type} (topo : σ → state_t σ)
    (fsm : state_machine_t σ) (event : event_t) :
    ((fsm_handle_event topo fsm event).1 = true ∨
      (fsm_handle_event topo fsm event).1 = false) ∧
    (∀ i t, fsm_find_transition (topo fsm.currentState).transitions 0 event.ID
        = some (i, t) → i < (topo fsm.currentState).transitions.length) ∧
    (∀ c ∈ (fsm_handle_event topo fsm event).2.2, ∀ i, c.transIdx = some i →
      i < (topo fsm.currentState).transitions.length) := by
  refine ⟨by cases (fsm_handle_event topo fsm event).1 <;> simp, ?_, ?_⟩
  · intro i t h
    simpa using fsm_find_transition_lt (topo fsm.currentState).transitions event.ID 0 i t h
  · intro c hc i hci
    rcases hfo : fsm_find_transition (topo fsm.currentState).transitions 0 event.ID
      with _ | ⟨j, t⟩
    · rw [handle_event_no_match topo fsm event hfo] at hc
      simp at hc
    · rcases handle_event_transIdx topo fsm event j t hfo c hc with h | h
      · rw [h] at hci
        exact Option.noConfusion hci
      · rw [h] at hci
        have hji : j = i := Option.some.inj hci
        subst hji
        simpa using fsm_find_transition_lt (topo fsm.currentState).transitions event.ID 0 j t hfo

/-- Witness for C8 at the door machine's successful dispatch. -/
theorem C8_bounded_termination_witness :
    ((fsm_handle_event exTopo ⟨0⟩ ⟨5, 7⟩).1 = true ∨
      (fsm_handle_event exTopo ⟨0⟩ ⟨5, 7⟩).1 = false) ∧
    (∀ i t, fsm_find_transition
        (exTopo ((⟨0⟩ : state_machine_t Nat)).currentState).transitions 0
        ((⟨5, 7⟩ : event_t)).ID = some (i, t) →
      i < (exTopo ((⟨0⟩ : state_machine_t Nat)).currentState).transitions.length) ∧
    (∀ c ∈ (fsm_handle_event exTopo ⟨0⟩ ⟨5, 7⟩).2.2, ∀ i, c.transIdx = some i →
      i < (exTopo ((⟨0⟩ : state_machine_t Nat)).currentState).transitions.length) :=
  C8_bounded_termination exTopo ⟨0⟩ ⟨5, 7⟩

/-- C9: dispatch is deterministic: two machines at the same current state,
under the same topology and the same event (with the same guard and callback
functions, which the topology carries), produce identical results — the same
boolean, the same final state and the same callback invocations in the same
order. -/
theorem C9_deterministic {σ : Type} (topo : σ → state_t σ)
    (m1 m2 : state_machine_t σ) (event : event_t)
    (h : m1.currentState = m2.currentState) :
    fsm_handle_event topo m1 event = fsm_handle_event topo m2 event := by
  cases m1
  cases m2
  cases h
  rfl

/-- Witness for C9 at the door machine. -/
theorem C9_deterministic_witness :
    ((⟨0⟩ : state_machine_t Nat)).currentState = ((⟨0⟩ : state_machine_t Nat)).currentState ∧
    fsm_handle_event exTopo ⟨0⟩ ⟨5, 7⟩ = fsm_handle_event exTopo ⟨0⟩ ⟨5, 7⟩ :=
  ⟨rfl, C9_deterministic exTopo ⟨0⟩ ⟨0⟩ ⟨5, 7⟩ rfl⟩

/-- C10: a self-loop behaves like any other successful transition: when the
first matching transition targets the current state itself and its guard
passes or is absent, dispatch returns `true`, the exit callback, the action
and the entry callback run once each in that order — all with that state's
payload — and the machine still sits in the same state. -/
theorem C10_self_loop {σ : Type} (topo : σ → state_t σ)
    (fsm : state_machine_t σ) (event : event_t) (i : Nat) (t : transition_t σ)
    (hf : fsm_find_transition (topo fsm.currentState).transitions 0 event.ID = some (i, t))
    (hself : t.nextState = fsm.currentState)
    (hg : t.guard = none ∨
      ∃ g, t.guard = some g ∧ g (topo fsm.currentState).data event = true) :
    (fsm_handle_event topo fsm event).1 = true ∧
    (fsm_handle_event topo fsm event).2.1 = fsm ∧
    callbackCalls (fsm_handle_event topo fsm event).2.2 =
      ((topo fsm.currentState).exitAction.toList.map fun cb =>
        Call.exitCall fsm.currentState cb (topo fsm.currentState).data event) ++
      (t.action.toList.map fun cb =>
        Call.actionCall fsm.currentState i cb (topo fsm.currentState).data event) ++
      ((topo fsm.currentState).entryAction.toList.map fun cb =>
        Call.entryCall fsm.currentState cb (topo fsm.currentState).data event) := by
  rcases hg with hgo | ⟨g, hgo, hr⟩
  · rw [handle_event_fire_of_guard_none topo fsm event i t hf hgo, hself]
    refine ⟨rfl, rfl, ?_⟩
    cases (topo fsm.currentState).exitAction <;>
      cases t.action <;>
      cases (topo fsm.currentState).entryAction <;>
      simp [callbackCalls, Call.isGuard]
  · rw [handle_event_fire_of_guard_true topo fsm event i t g hf hgo hr, hself]
    refine ⟨rfl, rfl, ?_⟩
    cases (topo fsm.currentState).exitAction <;>
      cases t.action <;>
      cases (topo fsm.currentState).entryAction <;>
      simp [callbackCalls, Call.isGuard]

/-- Witness for C10: state 5's self-loop on event 11 fires, runs exit 501,
action 502, entry 500 — each with payload 50 — and stays in state 5. -/
theorem C10_self_loop_witness :
    (fsm_find_transition (exTopo ((⟨5⟩ : state_machine_t Nat)).currentState).transitions 0
      (11 : Int) = some (0, exTSelf)) ∧
    exTSelf.nextState = ((⟨5⟩ : state_machine_t Nat)).currentState ∧
    (fsm_handle_event exTopo ⟨5⟩ ⟨11, 0⟩).1 = true ∧
    (fsm_handle_event exTopo ⟨5⟩ ⟨11, 0⟩).2.1 = ⟨5⟩ ∧
    callbackCalls (fsm_handle_event exTopo ⟨5⟩ ⟨11, 0⟩).2.2 =
      [Call.exitCall 5 501 50 ⟨11, 0⟩, Call.actionCall 5 0 502 50 ⟨11, 0⟩,
       Call.entryCall 5 500 50 ⟨11, 0⟩] :=
  have h := C10_self_loop exTopo ⟨5⟩ ⟨11, 0⟩ 0 exTSelf rfl rfl (Or.inl rfl)
  ⟨rfl, rfl, h.1, h.2.1, h.2.2.trans rfl⟩

end Fsm
